import Mathlib

/-!
Verification of the Context Assembly Engine (repository `bl-docs-`).

The Python modules `backend/database/connector.py`, `backend/context/manager.py`
and `backend/repository/scanner.py` are shallowly embedded below: strings are
lists of characters, `datetime` values are epoch seconds (`Int`), floats are
rationals, Python dicts are association lists, and every blocking collaborator
(the Oracle cursor, the filesystem analyzer) is an explicit oracle argument.
-/

namespace BLDocs

/-- Python strings are modelled as lists of characters. -/
abbrev Str := List Char

/-- `\w` of Python's `re` on the identifiers and SQL text involved here:
letters, digits and underscore. -/
def isWordChar (c : Char) : Bool := c.isAlphanum || c == '_'

/-- Scan of `re.search(r'\bW\b', s)` for an all-letter word `W`: `prev` records
whether the character immediately before the current position is a word
character, so a match needs `!prev` (a word boundary) and a non-word character
(or the end of the string) right after the matched word. -/
def containsWordFrom (w : Str) (prev : Bool) : Str → Bool
  | [] => false
  | c :: rest =>
    (!prev && w.isPrefixOf (c :: rest) &&
      (match (c :: rest).drop w.length with
       | [] => true
       | d :: _ => !isWordChar d)) ||
    containsWordFrom w (isWordChar c) rest

/-- `re.search(r'\bW\b', s) is not None` for an all-letter word `W`. -/
def containsWord (w : Str) (s : Str) : Bool := containsWordFrom w false s

/-- Python's `needle in hay` on strings: `needle` occurs contiguously in
`hay`. -/
def isSubstring (needle : Str) : Str → Bool
  | [] => needle.isEmpty
  | c :: rest => needle.isPrefixOf (c :: rest) || isSubstring needle rest

/-- Python `str.strip()`: drop leading and trailing whitespace. -/
def pyStrip (s : Str) : Str :=
  ((s.dropWhile Char.isWhitespace).reverse.dropWhile Char.isWhitespace).reverse

/-- One entry of `DatabaseSecurity.ALLOWED_PATTERNS`: `re.match(r'^KW\s+', s)`,
the keyword at the start of the string followed by at least one whitespace
character. -/
def hasKwAtStart (kw : Str) (s : Str) : Bool :=
  kw.isPrefixOf s &&
    (match s.drop kw.length with
     | [] => false
     | d :: _ => d.isWhitespace)

/-- `DatabaseSecurity.ALLOWED_PATTERNS` (connector.py lines 104-110), keywords
of the anchored patterns `^SELECT\s+`, `^WITH\s+`, `^EXPLAIN\s+`,
`^DESCRIBE\s+`, `^DESC\s+`. -/
def ALLOWED_PATTERNS : List Str :=
  ["SELECT".toList, "WITH".toList, "EXPLAIN".toList, "DESCRIBE".toList, "DESC".toList]

/-- `DatabaseSecurity.FORBIDDEN_PATTERNS` (connector.py lines 113-125), words of
the patterns `\bINSERT\b` ... `\bEXECUTE\b`. -/
def FORBIDDEN_PATTERNS : List Str :=
  ["INSERT".toList, "UPDATE".toList, "DELETE".toList, "DROP".toList, "CREATE".toList,
   "ALTER".toList, "TRUNCATE".toList, "GRANT".toList, "REVOKE".toList, "EXEC".toList,
   "EXECUTE".toList]

/-- `DatabaseSecurity.validate_query` (connector.py lines 140-157):
uppercase and strip the query, require one of the allowed read-only openers,
then reject if any forbidden word occurs. -/
def validate_query (query : Str) : Bool :=
  let queryUpper := pyStrip (query.map Char.toUpper)
  let allowed := ALLOWED_PATTERNS.any (fun p => hasKwAtStart p queryUpper)
  let forbidden := FORBIDDEN_PATTERNS.any (fun p => containsWord p queryUpper)
  allowed && !forbidden

/-- Big-endian decimal digit extraction with an explicit fuel argument (the
fuel bounds the number, so the recursion is structural). -/
def toDecimalAux : Nat → Nat → Str
  | 0, _ => []
  | _ + 1, 0 => []
  | fuel + 1, n + 1 => toDecimalAux fuel ((n + 1) / 10) ++ [Nat.digitChar ((n + 1) % 10)]

/-- Decimal rendering of a natural number, Python `str(n)` / an f-string
interpolation of a non-negative int. -/
def toDecimal (n : Nat) : Str :=
  if n = 0 then ['0'] else toDecimalAux (n + 1) n

/-- Decimal parsing, the inverse of `toDecimal` used to prove it injective. -/
def decimalValue (s : Str) : Nat :=
  s.foldl (fun acc c => acc * 10 + (c.toNat - 48)) 0

/-- A value in a query result row.  Python distinguishes `None`, `str` and
everything else; `mask_sensitive_data` branches exactly on that split, so
non-string non-null values are represented by `vInt`. -/
inductive Value where
  | vNull : Value
  | vStr : Str → Value
  | vInt : Int → Value
deriving DecidableEq, Repr

/-- `DatabaseSecurity.SENSITIVE_COLUMNS` (connector.py lines 128-138): the words
of the patterns `.*password.*` ... `.*pin.*`. -/
def SENSITIVE_COLUMNS : List Str :=
  ["password".toList, "ssn".toList, "social".toList, "credit".toList, "card".toList,
   "token".toList, "secret".toList, "key".toList, "pin".toList]

/-- The sensitivity test of `DatabaseSecurity.mask_sensitive_data`:
`re.match(r'.*W.*', name.lower())` on a (single-line) identifier is exactly a
substring test for `W` in the lowercased name. -/
def isSensitiveColumn (column_name : Str) : Bool :=
  let column_lower := column_name.map Char.toLower
  SENSITIVE_COLUMNS.any (fun p => isSubstring p column_lower)

/-- `DatabaseSecurity.mask_sensitive_data` (connector.py lines 159-176):
`None` passes through; in a sensitive column a string becomes
`'*' * min(len(value), 8)` and any other value becomes `'***'`;
non-sensitive columns pass values through unchanged. -/
def mask_sensitive_data (column_name : Str) (value : Value) : Value :=
  match value with
  | .vNull => .vNull
  | .vStr s =>
    if isSensitiveColumn column_name then .vStr (List.replicate (min s.length 8) '*')
    else .vStr s
  | .vInt n =>
    if isSensitiveColumn column_name then .vStr "***".toList
    else .vInt n

/-- `QueryResult` (connector.py lines 90-97).  `execution_time` (wall clock) is
not modelled, and the md5 `query_hash` is represented by the cache argument of
`execute_query` below. -/
structure QueryResult where
  columns : List Str
  rows : List (List Value)
  row_count : Nat
deriving DecidableEq, Repr

/-- The database seen through the cursor of `execute_query`: for a query it
yields the column names of `cursor.description` and the rows of `fetchall()`. -/
structure Database where
  run : Str → List Str × List (List Value)

/-- `columns[i] if i < len(columns) else f"col_{i}"` (connector.py line 665). -/
def columnNameAt (columns : List Str) (i : Nat) : Str :=
  match columns.get? i with
  | some c => c
  | none => "col_".toList ++ toDecimal i

/-- The masking loop of `execute_query` (connector.py lines 661-668), walking a
row with its running column index. -/
def maskRowFrom (columns : List Str) (i : Nat) : List Value → List Value
  | [] => []
  | v :: rest => mask_sensitive_data (columnNameAt columns i) v :: maskRowFrom columns (i + 1) rest

/-- One filtered row of `execute_query`: `enumerate(row)` starts at index 0. -/
def maskRow (columns : List Str) (row : List Value) : List Value :=
  maskRowFrom columns 0 row

/-- Outcome of `QueryExecutor.execute_query`: the `ValueError` raised by
validation or the produced `QueryResult`, together with whether a connection
was acquired from the pool (`self.pool.get_connection()`). -/
structure ExecOutcome where
  result : Except Str QueryResult
  connectionAcquired : Bool

/-- `QueryExecutor.execute_query` (connector.py lines 626-692).  The `cache`
argument stands for a fresh (within TTL) cached result stored under this
query's hash, `none` when the cache misses or `use_cache` is false; validation
runs before the cache is consulted and before any connection is acquired. -/
def execute_query (db : Database) (cache : Option QueryResult) (query : Str) : ExecOutcome :=
  if validate_query query = false then
    ⟨Except.error "Query contains forbidden operations".toList, false⟩
  else
    match cache with
    | some r => ⟨Except.ok r, false⟩
    | none =>
      let columns := (db.run query).1
      let rows := (db.run query).2
      let filtered_rows := rows.map (maskRow columns)
      ⟨Except.ok ⟨columns, filtered_rows, filtered_rows.length⟩, true⟩

/-- A fully redacted cell: a string of at most eight asterisks. -/
def isRedacted : Value → Bool
  | .vStr s => s.all (fun c => c == '*') && decide (s.length ≤ 8)
  | _ => false

/-- The deny-listed tokens named by the claim: `insert/update/delete/drop/
create/alter/truncate/grant/revoke/exec`, tested as whole words on the
uppercased, stripped query (so casing does not matter). -/
def deniedTokens : List Str :=
  ["INSERT".toList, "UPDATE".toList, "DELETE".toList, "DROP".toList, "CREATE".toList,
   "ALTER".toList, "TRUNCATE".toList, "GRANT".toList, "REVOKE".toList, "EXEC".toList]

/-- The query contains one of the claim's deny-listed tokens as a whole word,
in any casing. -/
def containsDeniedToken (query : Str) : Bool :=
  deniedTokens.any (fun w => containsWord w (pyStrip (query.map Char.toUpper)))

/-- The query begins with the given keyword, case-insensitively and ignoring
surrounding whitespace. -/
def beginsWithKw (kw : Str) (query : Str) : Bool :=
  kw.isPrefixOf (pyStrip (query.map Char.toUpper))

/-- A stub database used to exhibit concrete executions. -/
def dbStub : Database := ⟨fun _ => (["DUMMY".toList], [[Value.vInt 1]])⟩

theorem hasKwAtStart_prefixOf {kw s : Str} (h : hasKwAtStart kw s = true) :
    kw.isPrefixOf s = true := by
  unfold hasKwAtStart at h
  rw [Bool.and_eq_true] at h
  exact h.1

theorem deniedTokens_subset : ∀ w ∈ deniedTokens, w ∈ FORBIDDEN_PATTERNS := by decide

/-- Claim C1 (amended: the code's allow-list also contains the opener `DESC`).
A query that contains a deny-listed token as a whole word (any casing), or
that does not begin with one of the allowed read-only openers
select/with/explain/describe/desc, is rejected by `execute_query` with the
validation error, and no connection is acquired from the pool. -/
theorem c1_execute_query_rejects_unsafe (db : Database) (cache : Option QueryResult)
    (query : Str)
    (h : containsDeniedToken query = true ∨
         (ALLOWED_PATTERNS.all (fun kw => !beginsWithKw kw query)) = true) :
    (execute_query db cache query).result
        = Except.error "Query contains forbidden operations".toList ∧
    (execute_query db cache query).connectionAcquired = false := by
  have hval : validate_query query = false := by
    rcases h with h | h
    · -- a forbidden word occurs, so the second conjunct of the validator fails
      unfold containsDeniedToken at h
      rw [List.any_eq_true] at h
      obtain ⟨w, hw, hcw⟩ := h
      have hforb : (FORBIDDEN_PATTERNS.any
          (fun p => containsWord p (pyStrip (query.map Char.toUpper)))) = true :=
        List.any_eq_true.mpr ⟨w, deniedTokens_subset w hw, hcw⟩
      unfold validate_query
      simp only [hforb, Bool.not_true, Bool.and_false]
    · -- no allowed opener is even a prefix, so the first conjunct fails
      have hallow : (ALLOWED_PATTERNS.any
          (fun p => hasKwAtStart p (pyStrip (query.map Char.toUpper)))) = false := by
      -- if some opener matched, its keyword would be a prefix of the query
        rw [Bool.eq_false_iff]
        intro hany
        rw [List.any_eq_true] at hany
        obtain ⟨p, hp, hstart⟩ := hany
        have hpre := hasKwAtStart_prefixOf hstart
        have := List.all_eq_true.mp h p hp
        rw [Bool.not_eq_true'] at this
        unfold beginsWithKw at this
        rw [this] at hpre
        exact Bool.false_ne_true hpre
      unfold validate_query
      simp only [hallow, Bool.false_and]
  have hout : execute_query db cache query
      = ⟨Except.error "Query contains forbidden operations".toList, false⟩ := by
    simp [execute_query, hval]
  rw [hout]
  exact ⟨rfl, rfl⟩

theorem c1_witness :
    (execute_query dbStub none "DROP TABLE users".toList).result
        = Except.error "Query contains forbidden operations".toList ∧
    (execute_query dbStub none "DROP TABLE users".toList).connectionAcquired = false :=
  c1_execute_query_rejects_unsafe dbStub none "DROP TABLE users".toList (Or.inl (by decide))

/-- Claim C1 as stated is false on the code: the query `DESC employees` has no
deny-listed token and does not begin with select/with/explain/describe, yet
`execute_query` accepts it and acquires a connection (the code's allow-list
also contains `^DESC\s+`). -/
theorem c1_counterexample :
    containsDeniedToken "DESC employees".toList = false ∧
    (["SELECT".toList, "WITH".toList, "EXPLAIN".toList, "DESCRIBE".toList].all
        (fun kw => !beginsWithKw kw "DESC employees".toList)) = true ∧
    (execute_query dbStub none "DESC employees".toList).connectionAcquired = true := by
  refine ⟨by decide, by decide, by decide⟩

theorem maskRowFrom_get (columns : List Str) (row : List Value) :
    ∀ (k j : Nat), (maskRowFrom columns k row).get? j
      = (row.get? j).map (fun v => mask_sensitive_data (columnNameAt columns (k + j)) v) := by
  induction row with
  | nil => intro k j; rfl
  | cons v rest ih =>
      intro k j
      cases j with
      | zero => rfl
      | succ j =>
          show (maskRowFrom columns (k + 1) rest).get? j = _
          rw [ih (k + 1) j]
          have : k + 1 + j = k + (j + 1) := by omega
          rw [this]
          rfl

theorem mask_sensitive_isRedacted {name : Str} {v : Value}
    (hs : isSensitiveColumn name = true) (hv : v ≠ Value.vNull) :
    isRedacted (mask_sensitive_data name v) = true := by
  cases v with
  | vNull => exact absurd rfl hv
  | vStr s =>
      unfold mask_sensitive_data
      rw [hs]
      simp only [if_pos]
      unfold isRedacted
      rw [Bool.and_eq_true]
      constructor
      · rw [List.all_eq_true]
        intro c hc
        rw [List.eq_of_mem_replicate hc]
        rfl
      · rw [decide_eq_true_eq, List.length_replicate]
        exact Nat.min_le_right _ _
  | vInt n =>
      unfold mask_sensitive_data
      rw [hs]
      simp only [if_pos]
      rfl

/-- Claim C2: every non-null value appearing in a sensitive-named column of a
query result produced by `execute_query` is a redaction marker (a string of at
most eight asterisks), never the unmasked original. -/
theorem c2_execute_query_masks_sensitive (db : Database) (query : Str) (r : QueryResult)
    (hr : (execute_query db none query).result = Except.ok r) :
    ∀ row ∈ r.rows, ∀ (i : Nat) (v : Value), row.get? i = some v →
      isSensitiveColumn (columnNameAt r.columns i) = true → v ≠ Value.vNull →
      isRedacted v = true := by
  by_cases hval : validate_query query = false
  · rw [show execute_query db none query
        = ⟨Except.error "Query contains forbidden operations".toList, false⟩ by
          simp [execute_query, hval]] at hr
    exact absurd hr (by simp)
  · have hrun : execute_query db none query
        = ⟨Except.ok ⟨(db.run query).1, ((db.run query).2).map (maskRow (db.run query).1),
            (((db.run query).2).map (maskRow (db.run query).1)).length⟩, true⟩ := by
      simp [execute_query, hval]
    rw [hrun] at hr
    have hr' := Except.ok.inj hr
    subst hr'
    intro row hrow i v hget hsens hnull
    obtain ⟨row₀, _, rfl⟩ := List.mem_map.mp hrow
    rw [show maskRow (db.run query).1 row₀ = maskRowFrom (db.run query).1 0 row₀ from rfl,
        maskRowFrom_get] at hget
    cases hget₀ : row₀.get? i with
    | none => rw [hget₀] at hget; exact absurd hget (by simp)
    | some v₀ =>
        rw [hget₀] at hget
        simp only [Option.map_some'] at hget
        rw [Nat.zero_add] at hget
        have heq := Option.some.inj hget
        have hv₀ : v₀ ≠ Value.vNull := by
          intro h
          subst h
          rw [← heq] at hnull
          exact hnull rfl
        rw [← heq]
        exact mask_sensitive_isRedacted hsens hv₀

/-- A database returning one sensitive column, used as the concrete input of
the masking witnesses. -/
def dbSensitive : Database :=
  ⟨fun _ => (["USER_PASSWORD".toList], [[Value.vStr "hunter2".toList]])⟩

theorem c2_witness : isRedacted (Value.vStr (List.replicate 7 '*')) = true :=
  c2_execute_query_masks_sensitive dbSensitive "SELECT * FROM USERS".toList
    ⟨["USER_PASSWORD".toList], [[Value.vStr (List.replicate 7 '*')]], 1⟩
    (by rfl)
    [Value.vStr (List.replicate 7 '*')] (by simp) 0 (Value.vStr (List.replicate 7 '*'))
    (by rfl) (by decide) (by decide)

/-- Claim C3 as stated is false on the code: the redaction marker is not of
fixed length — a 2-character password masks to `**`, a 4-character one to
`****`, and a non-string value to `***`, so the masked output varies with the
original value's length and type. -/
theorem c3_counterexample :
    mask_sensitive_data "password".toList (Value.vStr "ab".toList)
        = Value.vStr "**".toList ∧
    mask_sensitive_data "password".toList (Value.vStr "abcd".toList)
        = Value.vStr "****".toList ∧
    mask_sensitive_data "password".toList (Value.vInt 1234)
        = Value.vStr "***".toList ∧
    "**".toList.length ≠ "****".toList.length := by
  refine ⟨by decide, by decide, by decide, by decide⟩

/-- Claim C3 (amended): for a sensitive column every non-null value is replaced
by an all-asterisk redaction marker of length at most 8 — of length
`min (length of the string) 8` for string values and of length 3 for
non-string values; the length is thus bounded but not fixed. -/
theorem c3_mask_marker (name : Str) (v : Value)
    (hs : isSensitiveColumn name = true) (hv : v ≠ Value.vNull) :
    ∃ k : Nat, mask_sensitive_data name v = Value.vStr (List.replicate k '*') ∧ k ≤ 8 ∧
      (∀ s : Str, v = Value.vStr s → k = min s.length 8) ∧
      (∀ n : Int, v = Value.vInt n → k = 3) := by
  cases v with
  | vNull => exact absurd rfl hv
  | vStr s =>
      refine ⟨min s.length 8, ?_, Nat.min_le_right _ _, ?_, ?_⟩
      · unfold mask_sensitive_data
        rw [hs]
        simp only [if_pos]
      · intro s' hs'
        rw [Value.vStr.inj hs']
      · intro n hn
        exact absurd hn (by simp)
  | vInt n =>
      refine ⟨3, ?_, by omega, ?_, ?_⟩
      · unfold mask_sensitive_data
        rw [hs]
        simp only [if_pos]
        rfl
      · intro s' hs'
        exact absurd hs' (by simp)
      · intro n' _
        rfl

theorem c3_witness :
    ∃ k : Nat, mask_sensitive_data "pin_code".toList (Value.vStr "1234567890".toList)
        = Value.vStr (List.replicate k '*') ∧ k ≤ 8 ∧
      (∀ s : Str, Value.vStr "1234567890".toList = Value.vStr s → k = min s.length 8) ∧
      (∀ n : Int, Value.vStr "1234567890".toList = Value.vInt n → k = 3) :=
  c3_mask_marker "pin_code".toList (Value.vStr "1234567890".toList) (by decide) (by decide)

/-- `GitInfo` (scanner.py lines 44-51).  Datetimes are epoch seconds; the
`last_commit_date` is optional because the relevance scorer guards it with a
truthiness test. -/
structure GitInfo where
  branch : Str
  last_commit : Str
  last_commit_date : Option Int
  remote_url : Option Str
  is_dirty : Bool

/-- `DependencyInfo` (scanner.py lines 35-41). -/
structure DependencyInfo where
  name : Str
  version : Option Str
  scope : Str
  type : Str

/-- The nested `file_structure` dictionary built by `_build_file_structure`
(scanner.py lines 627-649): a name-keyed tree of file and directory nodes. -/
inductive FileTree where
  | file (size : Nat) (language : Option Str) (is_config : Bool) (is_test : Bool)
  | directory (children : List (Str × FileTree))

/-- `RepositoryInfo` (scanner.py lines 54-68). -/
structure RepositoryInfo where
  name : Str
  path : Str
  primary_language : Str
  languages : List Str
  frameworks : List Str
  dependencies : List DependencyInfo
  file_structure : FileTree
  git_info : Option GitInfo
  size_bytes : Nat
  file_count : Nat
  last_scanned : Int
  scan_duration : ℚ

/-- `ContextRelevanceAnalyzer.TECHNOLOGY_KEYWORDS` (manager.py lines 73-82). -/
def TECHNOLOGY_KEYWORDS : List (Str × List Str) :=
  [("java".toList, (["java", "spring", "maven", "gradle", "jpa", "hibernate"].map String.toList)),
   ("javascript".toList, (["javascript", "js", "node", "npm", "react", "angular", "vue"].map String.toList)),
   ("typescript".toList, (["typescript", "ts", "angular", "react"].map String.toList)),
   ("python".toList, (["python", "django", "flask", "pip", "fastapi"].map String.toList)),
   ("database".toList, (["database", "sql", "oracle", "mysql", "postgres", "table", "schema"].map String.toList)),
   ("api".toList, (["api", "rest", "graphql", "endpoint", "service"].map String.toList)),
   ("frontend".toList, (["frontend", "ui", "component", "css", "html", "angular", "react"].map String.toList)),
   ("backend".toList, (["backend", "service", "api", "database", "server"].map String.toList))]

/-- `self.TECHNOLOGY_KEYWORDS.get(task_tech, [])` (manager.py line 217). -/
def techKeywordsFor (tech : Str) : List Str :=
  ((TECHNOLOGY_KEYWORDS.find? (fun p => p.1 == tech)).map Prod.snd).getD []

/-- The repository-name term of `_calculate_repository_relevance`
(manager.py lines 164-168): `+1.0` per keyword list entry found in the
lowercased repository name, capped at `3.0`, contributed only when at least
one entry matches. -/
def nameMatchScore (name : Str) (task_keywords : List Str) : ℚ :=
  let repo_name_lower := name.map Char.toLower
  let name_matches := task_keywords.countP (fun kw => isSubstring kw repo_name_lower)
  if 0 < name_matches then min 3 ((name_matches : ℚ) * 1) else 0

/-- Primary-language term (manager.py lines 170-172). -/
def primaryLanguageScore (repo : RepositoryInfo) (task_technologies : List Str) : ℚ :=
  if task_technologies.contains (repo.primary_language.map Char.toLower) then 2 else 0

/-- All-languages term (manager.py lines 174-177). -/
def languagesScore (repo : RepositoryInfo) (task_technologies : List Str) : ℚ :=
  let language_matches :=
    repo.languages.countP (fun lang => task_technologies.contains (lang.map Char.toLower))
  if 0 < language_matches then min 1 ((language_matches : ℚ) * (1 / 2)) else 0

/-- Framework term (manager.py lines 179-182). -/
def frameworksScore (repo : RepositoryInfo) (task_keywords : List Str) : ℚ :=
  let framework_matches :=
    repo.frameworks.countP (fun fw => task_keywords.contains (fw.map Char.toLower))
  if 0 < framework_matches then min 2 ((framework_matches : ℚ) * (7 / 10)) else 0

/-- Repository-size term (manager.py lines 184-188). -/
def sizeScore (repo : RepositoryInfo) : ℚ :=
  if 100 < repo.file_count then 1 / 2 else if 50 < repo.file_count then 3 / 10 else 0

/-- Recent-activity term (manager.py lines 190-196): `timedelta.days` is floor
division of the second difference by 86400. -/
def recencyScore (repo : RepositoryInfo) (now : Int) : ℚ :=
  match repo.git_info with
  | none => 0
  | some g =>
    match g.last_commit_date with
    | none => 0
    | some d =>
      let days_since_commit := (now - d).fdiv 86400
      if days_since_commit < 30 then 1 / 2
      else if days_since_commit < 90 then 3 / 10
      else 0

/-- `ContextRelevanceAnalyzer._calculate_tech_alignment` (manager.py lines
205-222): the fraction of task technologies one of whose keywords occurs in
some lowercased language/framework indicator of the repository. -/
def calculate_tech_alignment (repo : RepositoryInfo) (task_technologies : List Str) : ℚ :=
  if task_technologies.isEmpty then 0
  else
    let repo_tech_indicators := repo.languages ++ repo.frameworks
    let alignments := task_technologies.countP (fun task_tech =>
      (techKeywordsFor task_tech).any (fun tkw =>
        repo_tech_indicators.any (fun ind => isSubstring tkw (ind.map Char.toLower))))
    (alignments : ℚ) / (task_technologies.length : ℚ)

/-- `ContextRelevanceAnalyzer._calculate_repository_relevance` (manager.py
lines 154-203): the additive accumulation of the seven terms, normalized by
the maximum of 10 points and clamped to 1. -/
def calculate_repository_relevance (repo : RepositoryInfo)
    (task_keywords task_technologies : List Str) (now : Int) : ℚ :=
  let max_score : ℚ := 10
  let score :=
    nameMatchScore repo.name task_keywords
    + primaryLanguageScore repo task_technologies
    + languagesScore repo task_technologies
    + frameworksScore repo task_keywords
    + sizeScore repo
    + recencyScore repo now
    + calculate_tech_alignment repo task_technologies * (3 / 2)
  min 1 (score / max_score)

theorem nameMatchScore_nonneg (name : Str) (ks : List Str) : 0 ≤ nameMatchScore name ks := by
  simp only [nameMatchScore]
  split
  · exact le_min (by norm_num) (by positivity)
  · exact le_refl 0

theorem primaryLanguageScore_nonneg (repo : RepositoryInfo) (ts : List Str) :
    0 ≤ primaryLanguageScore repo ts := by
  simp only [primaryLanguageScore]
  split <;> norm_num

theorem languagesScore_nonneg (repo : RepositoryInfo) (ts : List Str) :
    0 ≤ languagesScore repo ts := by
  simp only [languagesScore]
  split
  · exact le_min (by norm_num) (by positivity)
  · exact le_refl 0

theorem frameworksScore_nonneg (repo : RepositoryInfo) (ks : List Str) :
    0 ≤ frameworksScore repo ks := by
  simp only [frameworksScore]
  split
  · exact le_min (by norm_num) (by positivity)
  · exact le_refl 0

theorem sizeScore_nonneg (repo : RepositoryInfo) : 0 ≤ sizeScore repo := by
  simp only [sizeScore]
  split
  · norm_num
  · split <;> norm_num

theorem recencyScore_nonneg (repo : RepositoryInfo) (now : Int) : 0 ≤ recencyScore repo now := by
  simp only [recencyScore]
  split
  · exact le_refl 0
  · split
    · exact le_refl 0
    · split
      · norm_num
      · split <;> norm_num

theorem calculate_tech_alignment_nonneg (repo : RepositoryInfo) (ts : List Str) :
    0 ≤ calculate_tech_alignment repo ts := by
  simp only [calculate_tech_alignment]
  split
  · exact le_refl 0
  · exact div_nonneg (by positivity) (by positivity)

/-- Claim C4: the repository relevance score always lies in `[0, 1]`, and for
fixed inputs (repository record, extracted keywords and technologies, and the
fixed current time used by the recency bonus) it is deterministic. -/
theorem c4_relevance_bounds (repo : RepositoryInfo)
    (task_keywords task_technologies : List Str) (now : Int) :
    (0 ≤ calculate_repository_relevance repo task_keywords task_technologies now ∧
     calculate_repository_relevance repo task_keywords task_technologies now ≤ 1) ∧
    (∀ (repo' : RepositoryInfo) (ks' ts' : List Str) (now' : Int),
      repo = repo' → task_keywords = ks' → task_technologies = ts' → now = now' →
      calculate_repository_relevance repo task_keywords task_technologies now
        = calculate_repository_relevance repo' ks' ts' now') := by
  refine ⟨⟨?_, ?_⟩, ?_⟩
  · simp only [calculate_repository_relevance]
    refine le_min (by norm_num) (div_nonneg ?_ (by norm_num))
    have h₁ := nameMatchScore_nonneg repo.name task_keywords
    have h₂ := primaryLanguageScore_nonneg repo task_technologies
    have h₃ := languagesScore_nonneg repo task_technologies
    have h₄ := frameworksScore_nonneg repo task_keywords
    have h₅ := sizeScore_nonneg repo
    have h₆ := recencyScore_nonneg repo now
    have h₇ := calculate_tech_alignment_nonneg repo task_technologies
    have h₈ : 0 ≤ calculate_tech_alignment repo task_technologies * (3 / 2) := by
      nlinarith
    linarith
  · simp only [calculate_repository_relevance]
    exact min_le_left 1 _
  · intro repo' ks' ts' now' h1 h2 h3 h4
    rw [h1, h2, h3, h4]

/-- A concrete repository record used by the scoring witnesses. -/
def repoUserService : RepositoryInfo :=
  { name := "user-service".toList
    path := "/repos/user-service".toList
    primary_language := "java".toList
    languages := ["java".toList, "sql".toList]
    frameworks := ["spring".toList]
    dependencies := []
    file_structure := FileTree.directory []
    git_info := some ⟨"main".toList, "abc1234".toList, some 1699990000, none, false⟩
    size_bytes := 123456
    file_count := 120
    last_scanned := 1700000000
    scan_duration := 2 }

theorem c4_witness :
    (0 ≤ calculate_repository_relevance repoUserService
          ["user".toList] ["java".toList] 1700000000 ∧
     calculate_repository_relevance repoUserService
          ["user".toList] ["java".toList] 1700000000 ≤ 1) ∧
    calculate_repository_relevance repoUserService
          ["user".toList] ["java".toList] 1700000000
      = calculate_repository_relevance repoUserService
          ["user".toList] ["java".toList] 1700000000 :=
  ⟨(c4_relevance_bounds repoUserService ["user".toList] ["java".toList] 1700000000).1,
   (c4_relevance_bounds repoUserService ["user".toList] ["java".toList] 1700000000).2
     repoUserService ["user".toList] ["java".toList] 1700000000 rfl rfl rfl rfl⟩

/-- A repository whose only nonzero score term is the name match, used to show
that duplicated keywords are counted with multiplicity. -/
def repoUser : RepositoryInfo :=
  { name := "user".toList
    path := "/repos/user".toList
    primary_language := "unknown".toList
    languages := []
    frameworks := []
    dependencies := []
    file_structure := FileTree.directory []
    git_info := none
    size_bytes := 0
    file_count := 0
    last_scanned := 0
    scan_duration := 0 }

/-- Claim C9 as stated is false on the code: the name-match term counts
keyword list entries with multiplicity, not distinct keywords.  With the
keyword list `["user", "user"]` and repository name `user` the term is `2`
(the distinct count would give `1`), and the difference is observable in the
final relevance score (`0.2` versus `0.1`). -/
theorem c9_counterexample :
    nameMatchScore "user".toList ["user".toList, "user".toList] = 2 ∧
    min 3 (((["user".toList, "user".toList].dedup).countP
        (fun kw => isSubstring kw ("user".toList.map Char.toLower)) : ℚ)) = 1 ∧
    calculate_repository_relevance repoUser ["user".toList, "user".toList] [] 0 = 1 / 5 ∧
    calculate_repository_relevance repoUser ["user".toList] [] 0 = 1 / 10 := by
  have hc2 : List.countP (fun kw => isSubstring kw (List.map Char.toLower "user".toList))
      ["user".toList, "user".toList] = 2 := by decide
  have hc1 : List.countP (fun kw => isSubstring kw (List.map Char.toLower "user".toList))
      ["user".toList] = 1 := by decide
  have hd : (["user".toList, "user".toList].dedup).countP
      (fun kw => isSubstring kw ("user".toList.map Char.toLower)) = 1 := by decide
  have hname2 : nameMatchScore "user".toList ["user".toList, "user".toList] = 2 := by
    simp only [nameMatchScore]
    rw [hc2]
    rw [if_pos (by norm_num : (0 : ℕ) < 2), mul_one]
    exact min_eq_right (by norm_num)
  have hname1 : nameMatchScore "user".toList ["user".toList] = 1 := by
    simp only [nameMatchScore]
    rw [hc1]
    rw [if_pos (by norm_num : (0 : ℕ) < 1), mul_one]
    exact min_eq_right (by norm_num)
  have hrest : primaryLanguageScore repoUser [] = 0 ∧ languagesScore repoUser [] = 0 ∧
      frameworksScore repoUser [] = 0 ∧ sizeScore repoUser = 0 ∧
      recencyScore repoUser 0 = 0 ∧ calculate_tech_alignment repoUser [] = 0 :=
    ⟨rfl, rfl, rfl, rfl, rfl, rfl⟩
  have hfw2 : frameworksScore repoUser ["user".toList, "user".toList] = 0 := rfl
  have hfw1 : frameworksScore repoUser ["user".toList] = 0 := rfl
  refine ⟨hname2, ?_, ?_, ?_⟩
  · rw [hd]
    exact min_eq_right (by norm_num)
  · simp only [calculate_repository_relevance]
    rw [show repoUser.name = "user".toList from rfl, hname2,
        hrest.1, hrest.2.1, hfw2, hrest.2.2.2.1, hrest.2.2.2.2.1, hrest.2.2.2.2.2]
    norm_num
  · simp only [calculate_repository_relevance]
    rw [show repoUser.name = "user".toList from rfl, hname1,
        hrest.1, hrest.2.1, hfw1, hrest.2.2.2.1, hrest.2.2.2.2.1, hrest.2.2.2.2.2]
    norm_num

/-- Claim C9 (amended): the name-match term contributes `+1.0` per entry of the
keyword list (counted with multiplicity) that occurs as a substring of the
lowercased repository name, capped at `+3.0`; the guard on a positive match
count is redundant. -/
theorem c9_name_match_multiplicity (name : Str) (task_keywords : List Str) :
    nameMatchScore name task_keywords
      = min 3 ((task_keywords.countP
          (fun kw => isSubstring kw (name.map Char.toLower)) : ℚ)) ∧
    (3 ≤ task_keywords.countP (fun kw => isSubstring kw (name.map Char.toLower)) →
      nameMatchScore name task_keywords = 3) := by
  have hmain : nameMatchScore name task_keywords
      = min 3 ((task_keywords.countP
          (fun kw => isSubstring kw (name.map Char.toLower)) : ℚ)) := by
    simp only [nameMatchScore, mul_one]
    split
    · rfl
    · rename_i h
      have h0 : task_keywords.countP (fun kw => isSubstring kw (name.map Char.toLower)) = 0 := by
        omega
      rw [h0]
      norm_num
  refine ⟨hmain, ?_⟩
  intro hge
  rw [hmain]
  have : (3 : ℚ) ≤ (task_keywords.countP (fun kw => isSubstring kw (name.map Char.toLower)) : ℚ) := by
    exact_mod_cast hge
  exact min_eq_left this

theorem c9_witness :
    nameMatchScore "user-service-api".toList
        ["user".toList, "service".toList, "api".toList, "user".toList] = 3 :=
  (c9_name_match_multiplicity "user-service-api".toList
      ["user".toList, "service".toList, "api".toList, "user".toList]).2 (by decide)

/-- `ColumnInfo` (connector.py lines 23-35). -/
structure ColumnInfo where
  name : Str
  data_type : Str
  nullable : Bool
  default_value : Option Str
  max_length : Option Nat
  precision : Option Nat
  scale : Option Nat
  is_primary_key : Bool
  is_foreign_key : Bool
  comments : Option Str

/-- `IndexInfo` (connector.py lines 38-46). -/
structure IndexInfo where
  name : Str
  table_name : Str
  columns : List Str
  is_unique : Bool
  is_primary : Bool
  index_type : Str

/-- `ForeignKeyInfo` (connector.py lines 49-58). -/
structure ForeignKeyInfo where
  name : Str
  source_table : Str
  source_columns : List Str
  target_table : Str
  target_columns : List Str
  delete_rule : Str
  update_rule : Str

/-- `TableInfo` (connector.py lines 61-72). -/
structure TableInfo where
  name : Str
  schema : Str
  table_type : Str
  columns : List ColumnInfo
  indexes : List IndexInfo
  foreign_keys : List ForeignKeyInfo
  row_count : Option Nat
  comments : Option Str
  last_analyzed : Int

/-- `SchemaAnalysis` (connector.py lines 75-87). -/
structure SchemaAnalysis where
  schema_name : Str
  tables : List TableInfo
  views : List Str
  sequences : List Str
  procedures : List Str
  functions : List Str
  total_tables : Nat
  total_columns : Nat
  analysis_date : Int
  analysis_duration : ℚ

/-- The per-table score of `ContextManager._identify_relevant_tables`
(manager.py lines 445-467): `+3` per keyword in the lowercased table name,
`+1` per (column, keyword) pair with the keyword in the lowercased column
name, `+2` per keyword in the lowercased table comment when present. -/
def tableScore (table : TableInfo) (task_keywords : List Str) : Nat :=
  let nameScore := 3 * task_keywords.countP (fun kw =>
    isSubstring (kw.map Char.toLower) (table.name.map Char.toLower))
  let columnScore := (table.columns.map (fun column =>
    task_keywords.countP (fun kw =>
      isSubstring (kw.map Char.toLower) (column.name.map Char.toLower)))).sum
  let commentScore :=
    match table.comments with
    | some c => 2 * task_keywords.countP (fun kw =>
        isSubstring (kw.map Char.toLower) (c.map Char.toLower))
    | none => 0
  nameScore + columnScore + commentScore

/-- The `relevant_tables` accumulation of `_identify_relevant_tables`
(manager.py lines 443-469): one `(name, score)` pair per table with a strictly
positive score, in the order the tables appear in the analysis. -/
def scoredTables (schema_analysis : SchemaAnalysis) (task_keywords : List Str) :
    List (Str × Nat) :=
  schema_analysis.tables.filterMap (fun table =>
    let table_score := tableScore table task_keywords
    if 0 < table_score then some (table.name, table_score) else none)

/-- Insertion into a descending-by-score list, placing the new element after
every element with a strictly greater score and before the first element whose
score is not greater.  Combined with `sortDesc` below this reproduces Python's
stable `list.sort(key=score, reverse=True)`. -/
def insertDesc (x : Str × Nat) : List (Str × Nat) → List (Str × Nat)
  | [] => [x]
  | y :: ys => if x.2 < y.2 then y :: insertDesc x ys else x :: y :: ys

/-- Stable descending sort by score (`relevant_tables.sort(key=lambda x: x[1],
reverse=True)`, manager.py line 472). -/
def sortDesc : List (Str × Nat) → List (Str × Nat)
  | [] => []
  | x :: xs => insertDesc x (sortDesc xs)

/-- `ContextManager._identify_relevant_tables` (manager.py lines 441-473):
score every table, keep strictly positive scores, sort stably by descending
score, return the names of the top 10. -/
def identify_relevant_tables (schema_analysis : SchemaAnalysis)
    (task_keywords : List Str) : List Str :=
  ((sortDesc (scoredTables schema_analysis task_keywords)).take 10).map Prod.fst

theorem mem_insertDesc {x y : Str × Nat} {l : List (Str × Nat)} :
    y ∈ insertDesc x l ↔ y = x ∨ y ∈ l := by
  induction l with
  | nil => simp [insertDesc]
  | cons z zs ih =>
      simp only [insertDesc]
      split
      · simp only [List.mem_cons, ih]
        tauto
      · simp [List.mem_cons]

theorem insertDesc_pairwise {x : Str × Nat} {l : List (Str × Nat)}
    (h : l.Pairwise (fun a b => b.2 ≤ a.2)) :
    (insertDesc x l).Pairwise (fun a b => b.2 ≤ a.2) := by
  induction l with
  | nil => simp [insertDesc]
  | cons y ys ih =>
      rw [List.pairwise_cons] at h
      simp only [insertDesc]
      split
      · rename_i hlt
        rw [List.pairwise_cons]
        refine ⟨?_, ih h.2⟩
        intro z hz
        rcases mem_insertDesc.mp hz with rfl | hz'
        · exact Nat.le_of_lt hlt
        · exact h.1 z hz'
      · rename_i hge
        rw [List.pairwise_cons]
        refine ⟨?_, List.pairwise_cons.mpr h⟩
        intro z hz
        rcases List.mem_cons.mp hz with rfl | hz'
        · omega
        · exact Nat.le_trans (h.1 z hz') (by omega)

theorem insertDesc_filter (x : Str × Nat) (l : List (Str × Nat)) (k : Nat) :
    (insertDesc x l).filter (fun p => p.2 == k)
      = if x.2 = k then x :: l.filter (fun p => p.2 == k)
        else l.filter (fun p => p.2 == k) := by
  induction l with
  | nil =>
      by_cases hx : x.2 = k <;> simp [insertDesc, List.filter_cons, hx]
  | cons y ys ih =>
      simp only [insertDesc]
      split
      · rename_i hlt
        by_cases hx : x.2 = k
        · have hy : (y.2 == k) = false := by
            have : y.2 ≠ k := by omega
            simp [this]
          simp only [List.filter_cons, hy, ih, if_pos hx, Bool.false_eq_true, if_false]
        · simp only [List.filter_cons, ih, if_neg hx]
      · by_cases hx : x.2 = k <;> simp [List.filter_cons, hx]

theorem sortDesc_pairwise (l : List (Str × Nat)) :
    (sortDesc l).Pairwise (fun a b => b.2 ≤ a.2) := by
  induction l with
  | nil => simp [sortDesc]
  | cons x xs ih => exact insertDesc_pairwise ih

theorem sortDesc_filter (l : List (Str × Nat)) (k : Nat) :
    (sortDesc l).filter (fun p => p.2 == k) = l.filter (fun p => p.2 == k) := by
  induction l with
  | nil => rfl
  | cons x xs ih =>
      show (insertDesc x (sortDesc xs)).filter (fun p => p.2 == k) = _
      rw [insertDesc_filter, List.filter_cons]
      by_cases hx : x.2 = k
      · rw [if_pos hx, ih, if_pos (by simp [hx])]
      · rw [if_neg hx, ih, if_neg (by simp [hx])]

theorem mem_sortDesc {y : Str × Nat} {l : List (Str × Nat)} :
    y ∈ sortDesc l ↔ y ∈ l := by
  induction l with
  | nil => simp [sortDesc]
  | cons x xs ih =>
      show y ∈ insertDesc x (sortDesc xs) ↔ _
      rw [mem_insertDesc, ih, List.mem_cons]

theorem scoredTables_mem {sa : SchemaAnalysis} {ks : List Str} {p : Str × Nat}
    (hp : p ∈ scoredTables sa ks) :
    ∃ t ∈ sa.tables, t.name = p.1 ∧ tableScore t ks = p.2 ∧ 0 < p.2 := by
  obtain ⟨t, ht, hs⟩ := List.mem_filterMap.mp hp
  dsimp only at hs
  by_cases hpos : 0 < tableScore t ks
  · rw [if_pos hpos] at hs
    obtain ⟨h1, h2⟩ := Prod.mk.inj (Option.some.inj hs)
    exact ⟨t, ht, h1, h2, h2 ▸ hpos⟩
  · rw [if_neg hpos] at hs
    exact absurd hs (by simp)

/-- Claim C5: the relevant-table list has at most 10 entries, contains only
names of tables with a strictly positive score, and is the name projection of
the first 10 entries of a list that is a descending, stable rearrangement of
the positively-scored tables (stability: for every score value the entries
with that score appear exactly in their original table order). -/
theorem c5_relevant_tables (sa : SchemaAnalysis) (task_keywords : List Str) :
    (identify_relevant_tables sa task_keywords).length ≤ 10 ∧
    (∀ name ∈ identify_relevant_tables sa task_keywords,
       ∃ t ∈ sa.tables, t.name = name ∧ 0 < tableScore t task_keywords) ∧
    (∃ L : List (Str × Nat),
       identify_relevant_tables sa task_keywords = (L.take 10).map Prod.fst ∧
       L.Pairwise (fun a b => b.2 ≤ a.2) ∧
       (∀ k : Nat, L.filter (fun p => p.2 == k)
           = (scoredTables sa task_keywords).filter (fun p => p.2 == k)) ∧
       (∀ p ∈ L, 0 < p.2)) := by
  refine ⟨?_, ?_, ?_⟩
  · rw [identify_relevant_tables, List.length_map, List.length_take]
    exact Nat.min_le_left _ _
  · intro name hname
    obtain ⟨p, hp, rfl⟩ := List.mem_map.mp hname
    have hp' : p ∈ sortDesc (scoredTables sa task_keywords) :=
      List.take_subset _ _ hp
    obtain ⟨t, ht, h1, h2, h3⟩ := scoredTables_mem (mem_sortDesc.mp hp')
    exact ⟨t, ht, h1, h2 ▸ h3⟩
  · refine ⟨sortDesc (scoredTables sa task_keywords), rfl, sortDesc_pairwise _,
      fun k => sortDesc_filter _ k, ?_⟩
    intro p hp
    obtain ⟨t, _, _, _, h⟩ := scoredTables_mem (mem_sortDesc.mp hp)
    exact h

/-- A concrete two-table schema used by the ranking witness. -/
def schemaDemo : SchemaAnalysis :=
  { schema_name := "APP".toList
    tables :=
      [{ name := "USER_AUTH_TOKENS".toList, schema := "APP".toList,
         table_type := "TABLE".toList, columns := [], indexes := [],
         foreign_keys := [], row_count := some 5, comments := none,
         last_analyzed := 0 },
       { name := "PRODUCT_CATALOG".toList, schema := "APP".toList,
         table_type := "TABLE".toList, columns := [], indexes := [],
         foreign_keys := [], row_count := some 7, comments := none,
         last_analyzed := 0 }]
    views := []
    sequences := []
    procedures := []
    functions := []
    total_tables := 2
    total_columns := 0
    analysis_date := 0
    analysis_duration := 1 }

theorem c5_witness :
    ∃ t ∈ schemaDemo.tables, t.name = "USER_AUTH_TOKENS".toList ∧
      0 < tableScore t ["auth".toList] :=
  (c5_relevant_tables schemaDemo ["auth".toList]).2.1 "USER_AUTH_TOKENS".toList (by decide)

/-- Lookup in a Python dict modelled as an association list. -/
def lookup {α : Type} (m : List (Str × α)) (k : Str) : Option α :=
  (m.find? (fun p => p.1 == k)).map Prod.snd

/-- Python dict assignment `m[k] = v`: replace the binding in place when the
key is present, append otherwise (insertion order preserved). -/
def setMap {α : Type} (m : List (Str × α)) (k : Str) (v : α) : List (Str × α) :=
  if (m.find? (fun p => p.1 == k)).isSome
  then m.map (fun p => if p.1 == k then (k, v) else p)
  else m ++ [(k, v)]

/-- `re.findall(r'\b\w+\b', text)`: the maximal runs of word characters, with
the run being accumulated carried in reverse. -/
def tokenizeAux : Str → Str → List Str
  | acc, [] => if acc.isEmpty then [] else [acc.reverse]
  | acc, c :: rest =>
    if isWordChar c then tokenizeAux (c :: acc) rest
    else if acc.isEmpty then tokenizeAux [] rest
    else acc.reverse :: tokenizeAux [] rest

/-- The stop-word set of `_extract_keywords` (manager.py lines 131-139). -/
def stop_words : List Str :=
  (["the", "a", "an", "and", "or", "but", "in", "on", "at", "to", "for",
    "of", "with", "by", "from", "is", "are", "was", "were", "be", "been",
    "have", "has", "had", "do", "does", "did", "will", "would", "could",
    "should", "may", "might", "must", "can", "this", "that", "these",
    "those", "i", "you", "he", "she", "it", "we", "they", "me", "him",
    "her", "us", "them", "my", "your", "his", "our", "their", "what",
    "when", "where", "why", "how", "who", "which"].map String.toList)

/-- `ContextRelevanceAnalyzer._extract_keywords` (manager.py lines 123-141):
lowercase, tokenize on word boundaries, drop stop words and tokens of length
at most 2. -/
def extract_keywords (text : Str) : List Str :=
  let words := tokenizeAux [] (text.map Char.toLower)
  words.filter (fun word => !stop_words.contains word && 2 < word.length)

/-- `ContextRelevanceAnalyzer._identify_technologies` (manager.py lines
143-152); the `keywords` parameter of the Python method is unused by its
body. -/
def identify_technologies (text : Str) : List Str :=
  TECHNOLOGY_KEYWORDS.filterMap (fun p =>
    if p.2.any (fun k => isSubstring k (text.map Char.toLower)) then some p.1 else none)

/-- `TaskContext` (manager.py lines 46-55). -/
structure TaskContext where
  task_id : Str
  task_description : Str
  task_type : Str
  technologies : List Str
  keywords : List Str
  created_at : Int
  workflow_step : Str

/-- `RepositoryContext` (manager.py lines 25-32). -/
structure RepositoryContext where
  selected_repositories : List Str
  repository_info : List (Str × RepositoryInfo)
  relevance_scores : List (Str × ℚ)
  last_updated : Int
  task_keywords : List Str

/-- `DatabaseContext` (manager.py lines 35-43). -/
structure DatabaseContext where
  selected_schema : Str
  schema_analysis : Option SchemaAnalysis
  relevant_tables : List Str
  table_relationships : List (Str × (List Str × List Str))
  last_updated : Int
  connection_status : Bool

/-- `WorkflowContext` (manager.py lines 58-66). -/
structure WorkflowContext where
  task_context : TaskContext
  repository_context : Option RepositoryContext
  database_context : Option DatabaseContext
  context_id : Str
  created_at : Int
  last_accessed : Int

/-- The mutable state of a `ContextManager` together with the collaborators it
reads: the in-memory context index and current pointer, the durable records
written by `_persist_context` (keyed by context id), the relevance analyzer's
result cache (keyed by the task description standing for
`f"relevance_(hash(task))"`, holding the scores and their store time), and the
repository scanner's `_cache` keyed by repository path. -/
structure ContextManagerState where
  active_contexts : List (Str × WorkflowContext)
  current_context_id : Option Str
  persisted : List (Str × WorkflowContext)
  analyzer_cache : List (Str × (List (Str × ℚ) × Int))
  scanner_cache : List (Str × RepositoryInfo)

/-- `ContextRelevanceAnalyzer.analyze_task_relevance` (manager.py lines
88-121): serve a cached score map younger than the 30-minute TTL, otherwise
extract keywords/technologies, score every repository into a dict, and store
the result in the cache.  Returns the score map and the updated cache. -/
def analyze_task_relevance (cache : List (Str × (List (Str × ℚ) × Int)))
    (now : Int) (task_description : Str) (repositories : List RepositoryInfo) :
    List (Str × ℚ) × List (Str × (List (Str × ℚ) × Int)) :=
  match lookup cache task_description with
  | some (cached_result, cached_time) =>
    if now - cached_time < 1800 then (cached_result, cache)
    else
      let task_keywords := extract_keywords task_description
      let task_technologies := identify_technologies task_description
      let relevance_scores := repositories.foldl (fun acc repo =>
        setMap acc repo.name
          (calculate_repository_relevance repo task_keywords task_technologies now)) []
      (relevance_scores, setMap cache task_description (relevance_scores, now))
  | none =>
    let task_keywords := extract_keywords task_description
    let task_technologies := identify_technologies task_description
    let relevance_scores := repositories.foldl (fun acc repo =>
      setMap acc repo.name
        (calculate_repository_relevance repo task_keywords task_technologies now)) []
    (relevance_scores, setMap cache task_description (relevance_scores, now))

/-- `f"ctx_(task_id)_(int(datetime.now().timestamp()))"` (manager.py line
281): the context id built from the task id and the creation instant truncated
to whole seconds. -/
def makeContextId (task_id : Str) (ts : Nat) : Str :=
  "ctx_".toList ++ (task_id ++ ('_' :: toDecimal ts))

/-- `ContextManager.create_task_context` (manager.py lines 248-299): derive
keywords and technologies, build the `TaskContext` with `workflow_step =
'questions'`, allocate the context id from the task id and the current second,
index the new context, make it current, and persist it.  Returns the context
id and the updated state; `now` is the epoch second of the call. -/
def create_task_context (st : ContextManagerState) (now : Int)
    (task_id task_description task_type : Str) : Str × ContextManagerState :=
  let keywords := extract_keywords task_description
  let technologies := identify_technologies task_description
  let task_context : TaskContext :=
    ⟨task_id, task_description, task_type, technologies, keywords, now, "questions".toList⟩
  let context_id := makeContextId task_id now.toNat
  let workflow_context : WorkflowContext :=
    ⟨task_context, none, none, context_id, now, now⟩
  (context_id,
   { st with
     active_contexts := setMap st.active_contexts context_id workflow_context
     current_context_id := some context_id
     persisted := setMap st.persisted context_id workflow_context })

/-- `ContextManager.set_repository_context` (manager.py lines 301-365): fail
on an unknown context id; fail — touching nothing — when any requested name is
missing from the scanner's cache; otherwise gather the requested repository
records, optionally compute relevance scores over the full candidate pool,
install the new `RepositoryContext`, bump `last_accessed`, and persist.
(The Python local `selected_repos` is assembled but never read.) -/
def set_repository_context (st : ContextManagerState) (now : Int)
    (context_id : Str) (repository_names : List Str)
    (auto_analyze_relevance : Bool) : Bool × ContextManagerState :=
  match lookup st.active_contexts context_id with
  | none => (false, st)
  | some workflow_context =>
    let available_repos := st.scanner_cache.map Prod.snd
    let available_names := available_repos.map RepositoryInfo.name
    if repository_names.any (fun n => !available_names.contains n) then (false, st)
    else
      let repository_info := available_repos.foldl (fun acc repo =>
        if repository_names.contains repo.name then setMap acc repo.name repo else acc) []
      let scoresAndCache :=
        if auto_analyze_relevance then
          let task_description := workflow_context.task_context.task_description
          let r := analyze_task_relevance st.analyzer_cache now task_description available_repos
          (repository_names.map (fun n => (n, (lookup r.1 n).getD 0)), r.2)
        else ([], st.analyzer_cache)
      let repo_context : RepositoryContext :=
        ⟨repository_names, repository_info, scoresAndCache.1, now,
         workflow_context.task_context.keywords⟩
      let wc' := { workflow_context with
                   repository_context := some repo_context
                   last_accessed := now }
      (true,
       { st with
         active_contexts := setMap st.active_contexts context_id wc'
         persisted := setMap st.persisted context_id wc'
         analyzer_cache := scoresAndCache.2 })

/-- `ContextManager.update_workflow_step` (manager.py lines 498-508): fail on
an unknown context id, otherwise store the given step string verbatim, bump
`last_accessed`, persist, and return true. -/
def update_workflow_step (st : ContextManagerState) (now : Int)
    (context_id step : Str) : Bool × ContextManagerState :=
  match lookup st.active_contexts context_id with
  | none => (false, st)
  | some workflow_context =>
    let wc' := { workflow_context with
                 task_context := { workflow_context.task_context with workflow_step := step }
                 last_accessed := now }
    (true,
     { st with
       active_contexts := setMap st.active_contexts context_id wc'
       persisted := setMap st.persisted context_id wc' })

/-- Outcome of one `RepositoryScanner._scan_single_repository` call: the
returned record (`None` on an analysis failure), the resulting cache, and
whether an actual rescan was performed. -/
structure ScanOutcome where
  result : Option RepositoryInfo
  cache : List (Str × RepositoryInfo)
  rescanned : Bool

/-- `RepositoryScanner._scan_single_repository` (scanner.py lines 489-526).
The cached entry is reused when `force_rescan` is false and its age is under
one hour (3600 s); otherwise `_analyze_repository` — modelled by the `analyze`
oracle, returning `none` on the exception path — runs and its result is stored
in the cache.  (`scan_duration`, wall-clock time, is part of the oracle's
output.) -/
def scan_single_repository (cache : List (Str × RepositoryInfo)) (now : Int)
    (analyze : Str → Option RepositoryInfo) (repo_path : Str)
    (force_rescan : Bool) : ScanOutcome :=
  let freshScan : ScanOutcome :=
    match analyze repo_path with
    | some repo_info => ⟨some repo_info, setMap cache repo_path repo_info, true⟩
    | none => ⟨none, cache, true⟩
  if force_rescan then freshScan
  else
    match lookup cache repo_path with
    | some cached_info =>
      if now - cached_info.last_scanned < 3600 then ⟨some cached_info, cache, false⟩
      else freshScan
    | none => freshScan

theorem find_replace {α : Type} (m : List (Str × α)) (k : Str) (v : α)
    (np : (m.find? (fun p => p.1 == k)).isSome = true) :
    ((m.map (fun p => if p.1 == k then (k, v) else p)).find? (fun p => p.1 == k))
      = some (k, v) := by
  induction m with
  | nil => simp at np
  | cons p ps ih =>
      by_cases hp : (p.1 == k) = true
      · rw [List.map_cons, if_pos hp]
        simp [List.find?_cons]
      · have hp' : (p.1 == k) = false := by simpa using hp
        simp only [List.find?_cons, hp'] at np
        simp only [List.map_cons, hp', Bool.false_eq_true, if_false, List.find?_cons]
        exact ih np

theorem find_append_missing {α : Type} (m : List (Str × α)) (k : Str) (v : α)
    (h : (m.find? (fun p => p.1 == k)) = none) :
    ((m ++ [(k, v)]).find? (fun p => p.1 == k)) = some (k, v) := by
  induction m with
  | nil => simp
  | cons p ps ih =>
      simp only [List.cons_append, List.find?_cons] at h ⊢
      cases hb : (p.1 == k) with
      | false =>
          simp only [hb] at h ⊢
          exact ih h
      | true =>
          simp only [hb] at h
          exact absurd h (by simp)

theorem lookup_setMap {α : Type} (m : List (Str × α)) (k : Str) (v : α) :
    lookup (setMap m k v) k = some v := by
  unfold setMap
  split
  · rename_i h
    unfold lookup
    rw [find_replace m k v h]
    rfl
  · rename_i h
    unfold lookup
    rw [find_append_missing m k v (by
      cases hf : m.find? (fun p => p.1 == k) with
      | none => rfl
      | some p => rw [hf] at h; exact absurd rfl h)]
    rfl

/-- Claim C6: for an existing workflow context, a `set_repository_context`
call naming at least one repository absent from the scanner's cache returns
false and leaves the whole manager state — active contexts, current pointer,
persisted records, and caches — exactly as it was. -/
theorem c6_set_repository_context_no_mutation (st : ContextManagerState) (now : Int)
    (context_id : Str) (repository_names : List Str) (auto_analyze_relevance : Bool)
    (wc : WorkflowContext)
    (hctx : lookup st.active_contexts context_id = some wc)
    (hunknown : repository_names.any (fun n =>
        !((st.scanner_cache.map Prod.snd).map RepositoryInfo.name).contains n) = true) :
    set_repository_context st now context_id repository_names auto_analyze_relevance
      = (false, st) := by
  unfold set_repository_context
  rw [hctx]
  simp only [hunknown, if_pos]

/-- A concrete workflow context and manager state used by the witnesses. -/
def taskA : TaskContext :=
  ⟨"t1".toList, "add user login".toList, "feature".toList, [], [], 5, "questions".toList⟩

def wcA : WorkflowContext := ⟨taskA, none, none, "ctx_t1_5".toList, 5, 5⟩

def stA : ContextManagerState :=
  ⟨[("ctx_t1_5".toList, wcA)], some "ctx_t1_5".toList, [("ctx_t1_5".toList, wcA)], [], []⟩

theorem c6_witness :
    set_repository_context stA 6 "ctx_t1_5".toList ["ghost-repo".toList] true
      = (false, stA) :=
  c6_set_repository_context_no_mutation stA 6 "ctx_t1_5".toList ["ghost-repo".toList]
    true wcA rfl rfl

/-- Claim C10: for a context present in the active-context map,
`update_workflow_step` stores any given step string verbatim (no validation
against the documented three-step set), bumps `last_accessed`, persists the
updated context, and returns true. -/
theorem c10_update_workflow_step_unvalidated (st : ContextManagerState)
    (now : Int) (context_id step : Str) (wc : WorkflowContext)
    (hctx : lookup st.active_contexts context_id = some wc) :
    (update_workflow_step st now context_id step).1 = true ∧
    lookup (update_workflow_step st now context_id step).2.active_contexts context_id
      = some { wc with
               task_context := { wc.task_context with workflow_step := step }
               last_accessed := now } ∧
    lookup (update_workflow_step st now context_id step).2.persisted context_id
      = some { wc with
               task_context := { wc.task_context with workflow_step := step }
               last_accessed := now } := by
  unfold update_workflow_step
  rw [hctx]
  exact ⟨rfl, lookup_setMap _ _ _, lookup_setMap _ _ _⟩

theorem c10_witness :
    "bogus".toList ∉ ["questions".toList, "answers".toList, "card_generation".toList] ∧
    ((update_workflow_step stA 6 "ctx_t1_5".toList "bogus".toList).1 = true ∧
     lookup (update_workflow_step stA 6 "ctx_t1_5".toList "bogus".toList).2.active_contexts
         "ctx_t1_5".toList
       = some { wcA with
                task_context := { wcA.task_context with workflow_step := "bogus".toList }
                last_accessed := 6 } ∧
     lookup (update_workflow_step stA 6 "ctx_t1_5".toList "bogus".toList).2.persisted
         "ctx_t1_5".toList
       = some { wcA with
                task_context := { wcA.task_context with workflow_step := "bogus".toList }
                last_accessed := 6 }) :=
  ⟨by decide,
   c10_update_workflow_step_unvalidated stA 6 "ctx_t1_5".toList "bogus".toList wcA rfl⟩

/-- Claim C8: a per-repository scan with `force_rescan = false` and a cache
entry younger than the 1-hour TTL returns exactly the cached `RepositoryInfo`,
leaves the cache unchanged, and performs no rescan. -/
theorem c8_cached_scan_reused (cache : List (Str × RepositoryInfo)) (now : Int)
    (analyze : Str → Option RepositoryInfo) (repo_path : Str)
    (cached_info : RepositoryInfo)
    (hcache : lookup cache repo_path = some cached_info)
    (hage : now - cached_info.last_scanned < 3600) :
    scan_single_repository cache now analyze repo_path false
      = ⟨some cached_info, cache, false⟩ := by
  unfold scan_single_repository
  rw [if_neg (by simp), hcache]
  simp only [if_pos hage]

theorem c8_witness :
    scan_single_repository [("/repos/user-service".toList, repoUserService)]
        1700000100 (fun _ => none) "/repos/user-service".toList false
      = ⟨some repoUserService, [("/repos/user-service".toList, repoUserService)], false⟩ :=
  c8_cached_scan_reused [("/repos/user-service".toList, repoUserService)] 1700000100
    (fun _ => none) "/repos/user-service".toList repoUserService rfl (by decide)

theorem toDecimalAux_zero (fuel : Nat) : toDecimalAux fuel 0 = [] := by
  cases fuel <;> rfl

theorem digitChar_decode : ∀ m : Nat, m < 10 → (Nat.digitChar m).toNat - 48 = m := by decide

theorem toDecimalAux_value : ∀ fuel n, 0 < n → n ≤ fuel →
    decimalValue (toDecimalAux fuel n) = n := by
  intro fuel
  induction fuel with
  | zero => intro n h0 hle; omega
  | succ fuel ih =>
      intro n h0 hle
      obtain ⟨m, rfl⟩ : ∃ m, n = m + 1 := ⟨n - 1, by omega⟩
      show decimalValue
        (toDecimalAux fuel ((m + 1) / 10) ++ [Nat.digitChar ((m + 1) % 10)]) = m + 1
      unfold decimalValue
      rw [List.foldl_append]
      have hmod : (m + 1) % 10 < 10 := Nat.mod_lt _ (by norm_num)
      by_cases hq : (m + 1) / 10 = 0
      · have hsmall : m + 1 < 10 := by omega
        rw [hq, toDecimalAux_zero]
        simp only [List.foldl_nil, List.foldl_cons]
        rw [digitChar_decode _ hmod]
        omega
      · have hqpos : 0 < (m + 1) / 10 := Nat.pos_of_ne_zero hq
        have hqlt : (m + 1) / 10 < m + 1 := Nat.div_lt_self (by omega) (by norm_num)
        have hrec := ih ((m + 1) / 10) hqpos (by omega)
        unfold decimalValue at hrec
        rw [hrec]
        simp only [List.foldl_cons, List.foldl_nil]
        rw [digitChar_decode _ hmod]
        omega

theorem decimalValue_toDecimal (n : Nat) : decimalValue (toDecimal n) = n := by
  unfold toDecimal
  by_cases h : n = 0
  · rw [if_pos h]
    subst h
    rfl
  · rw [if_neg h]
    exact toDecimalAux_value (n + 1) n (by omega) (by omega)

theorem toDecimal_inj {m n : Nat} (h : toDecimal m = toDecimal n) : m = n := by
  have hm := decimalValue_toDecimal m
  rw [h, decimalValue_toDecimal] at hm
  omega

theorem digitChar_ne_underscore : ∀ m : Nat, m < 10 → Nat.digitChar m ≠ '_' := by decide

theorem toDecimalAux_no_underscore :
    ∀ fuel n c, c ∈ toDecimalAux fuel n → c ≠ '_' := by
  intro fuel
  induction fuel with
  | zero => intro n c hc; exact absurd hc (by simp [toDecimalAux])
  | succ fuel ih =>
      intro n c hc
      cases n with
      | zero => exact absurd hc (by simp [toDecimalAux])
      | succ m =>
          rw [show toDecimalAux (fuel + 1) (m + 1)
              = toDecimalAux fuel ((m + 1) / 10) ++ [Nat.digitChar ((m + 1) % 10)]
              from rfl] at hc
          rcases List.mem_append.mp hc with h1 | h2
          · exact ih _ c h1
          · rw [List.mem_singleton] at h2
            subst h2
            exact digitChar_ne_underscore _ (Nat.mod_lt _ (by norm_num))

theorem toDecimal_no_underscore (n : Nat) : ∀ c ∈ toDecimal n, c ≠ '_' := by
  intro c hc
  unfold toDecimal at hc
  by_cases h : n = 0
  · rw [if_pos h, List.mem_singleton] at hc
    subst hc
    decide
  · rw [if_neg h] at hc
    exact toDecimalAux_no_underscore _ _ c hc

theorem split_at_underscore :
    ∀ (xs1 ys1 xs2 ys2 : Str), (∀ c ∈ xs1, c ≠ '_') → (∀ c ∈ xs2, c ≠ '_') →
      xs1 ++ '_' :: ys1 = xs2 ++ '_' :: ys2 → xs1 = xs2 ∧ ys1 = ys2 := by
  intro xs1
  induction xs1 with
  | nil =>
      intro ys1 xs2 ys2 _ h2 heq
      cases xs2 with
      | nil =>
          rw [List.nil_append, List.nil_append] at heq
          exact ⟨rfl, (List.cons.inj heq).2⟩
      | cons c xs2' =>
          rw [List.nil_append, List.cons_append] at heq
          exact absurd (List.cons.inj heq).1.symm (h2 c (List.mem_cons_self _ _))
  | cons c xs1' ih =>
      intro ys1 xs2 ys2 h1 h2 heq
      cases xs2 with
      | nil =>
          rw [List.nil_append, List.cons_append] at heq
          exact absurd (List.cons.inj heq).1 (h1 c (List.mem_cons_self _ _))
      | cons d xs2' =>
          rw [List.cons_append, List.cons_append] at heq
          obtain ⟨hcd, htail⟩ := List.cons.inj heq
          obtain ⟨hx, hy⟩ := ih ys1 xs2' ys2
            (fun a ha => h1 a (List.mem_cons_of_mem _ ha))
            (fun a ha => h2 a (List.mem_cons_of_mem _ ha)) htail
          exact ⟨by rw [hcd, hx], hy⟩

theorem makeContextId_inj {t1 t2 : Str} {s1 s2 : Nat}
    (h : makeContextId t1 s1 = makeContextId t2 s2) : t1 = t2 ∧ s1 = s2 := by
  unfold makeContextId at h
  have h1 : t1 ++ '_' :: toDecimal s1 = t2 ++ '_' :: toDecimal s2 :=
    List.append_cancel_left h
  have h2 : (toDecimal s1).reverse ++ '_' :: t1.reverse
      = (toDecimal s2).reverse ++ '_' :: t2.reverse := by
    have hr := congrArg List.reverse h1
    simpa [List.reverse_append, List.append_assoc] using hr
  obtain ⟨hd, ht⟩ := split_at_underscore (toDecimal s1).reverse t1.reverse
    (toDecimal s2).reverse t2.reverse
    (fun c hc => toDecimal_no_underscore s1 c (List.mem_reverse.mp hc))
    (fun c hc => toDecimal_no_underscore s2 c (List.mem_reverse.mp hc)) h2
  exact ⟨List.reverse_injective ht, toDecimal_inj (List.reverse_injective hd)⟩

/-- The empty manager state (no contexts, nothing persisted, empty caches). -/
def stEmpty : ContextManagerState := ⟨[], none, [], [], []⟩

/-- Claim C7 as stated is false on the code: two distinct `create_task_context`
calls — the second performed on the state produced by the first — with the
same task id during the same whole second return the same context id, because
the id is `ctx_(task_id)_(int(timestamp))` with second granularity. -/
theorem c7_counterexample :
    (create_task_context
        (create_task_context stEmpty 5 "t1".toList "add login".toList "feature".toList).2
        5 "t1".toList "add login".toList "feature".toList).1
      = (create_task_context stEmpty 5 "t1".toList "add login".toList "feature".toList).1 :=
  rfl

/-- Claim C7 (amended): context ids are unique across calls that differ in the
task id or in the creation instant truncated to whole seconds — two
`create_task_context` calls return the same context id only if their task ids
are equal and their timestamps fall in the same whole second. -/
theorem c7_context_id_unique (st1 st2 : ContextManagerState) (now1 now2 : Int)
    (tid1 tid2 d1 d2 ty1 ty2 : Str)
    (h : (create_task_context st1 now1 tid1 d1 ty1).1
        = (create_task_context st2 now2 tid2 d2 ty2).1) :
    tid1 = tid2 ∧ now1.toNat = now2.toNat :=
  makeContextId_inj h

theorem c7_witness :
    "t1".toList = "t1".toList ∧ (5 : Int).toNat = (5 : Int).toNat :=
  c7_context_id_unique stEmpty stEmpty 5 5 "t1".toList "t1".toList
    "add login".toList "add login".toList "feature".toList "feature".toList rfl

end BLDocs
